/-
Verification of the compliance-checking pipeline (prem-cre/compilance).

This file gives a shallow embedding, in Lean 4, of the deterministic
scaffolding of the repository: the four-stage LangGraph pipeline of
`compliance.py` (context setup, rule extraction, verification, cleanup),
the result parser `_parse_result`, the tenacity retry policy
`call_gemini_with_retry`, and the store-manager operations of
`compliance_file_store.py` (`_get_or_create_store`, `_setup_user_context`,
`_setup_admin_context`, `_ensure_admin_file_exists`, `_upload_from_s3`,
`get_user_context`, `cleanup_user_file`, `prepare_compliance_context`,
`check_compliance_with_user_rules`).

External effects (calls to the generation service, remote file deletion,
S3 transfers, remote document listings) are modelled by oracles passed in
explicitly, and every externally visible action is recorded as an `Event`
so that theorems can speak about which remote calls a stage issues.
-/
import Mathlib

namespace Compilance

/-! ## Python-truthiness helpers -/

/-- Truthiness of a Python string: non-empty. -/
def truthyS (s : String) : Bool := s ≠ ""

/-- Truthiness of a Python `Optional[str]`: present and non-empty. -/
def truthyO : Option String → Bool
  | none => false
  | some s => s ≠ ""

/-- `charsPre p c` decides whether `p` is a leading segment of `c`
(character lists). -/
def charsPre : List Char → List Char → Bool
  | [], _ => true
  | _ :: _, [] => false
  | p :: ps, c :: cs => p == c && charsPre ps cs

/-- `charsInfix p c` decides whether `p` occurs contiguously inside `c`. -/
def charsInfix : List Char → List Char → Bool
  | pat, [] => pat.isEmpty
  | pat, c :: cs => charsPre pat (c :: cs) || charsInfix pat cs

/-- The Python expression `needle in haystack` on `str`: case-sensitive
substring containment. -/
def pyContains (needle haystack : String) : Bool :=
  charsInfix needle.data haystack.data

/-! ## Retry policy (`call_gemini_with_retry`, compliance.py lines 58-68)

tenacity is configured with `stop_after_attempt(4)` and
`wait_exponential(multiplier=2, min=2, max=20)`.  `wait_exponential`
computes `multiplier * 2^(attempt_number - 1)` clamped into `[min, max]`.
Time units are seconds, modelled as naturals. -/

/-- tenacity's `wait_exponential(multiplier, min, max)` evaluated at a
given (1-based) attempt number. -/
def wait_exponential (multiplier minv maxv attemptNumber : Nat) : Nat :=
  max minv (min (multiplier * 2 ^ (attemptNumber - 1)) maxv)

/-- The wait inserted after failing attempt `k`, with the repository's
configuration `multiplier=2, min=2, max=20`. -/
def retryWait (k : Nat) : Nat := wait_exponential 2 2 20 k

/-- Outcome of a retried call: the final result, the number of attempts
actually performed, and the total time slept between attempts. -/
structure RetryOutcome where
  result : Except String String
  attempts : Nat
  totalWait : Nat

/-- The tenacity retry loop: `remaining` attempts are allowed, the next
attempt has 1-based index `attempt`; `oracle k` is the outcome of the
wrapped call on its `k`-th invocation.  A success returns immediately;
once the final allowed attempt fails, the last failure propagates. -/
def retryLoop (oracle : Nat → Except String String) : Nat → Nat → RetryOutcome
  | 0, _ => ⟨Except.error "", 0, 0⟩
  | remaining + 1, attempt =>
    match oracle attempt with
    | Except.ok t => ⟨Except.ok t, 1, 0⟩
    | Except.error e =>
      match remaining with
      | 0 => ⟨Except.error e, 1, 0⟩
      | r + 1 =>
        let rest := retryLoop oracle (r + 1) (attempt + 1)
        ⟨rest.result, rest.attempts + 1, retryWait attempt + rest.totalWait⟩

/-- `call_gemini_with_retry`: at most 4 attempts, exponential backoff as
configured in compliance.py / compilance_states.py. -/
def call_gemini_with_retry (oracle : Nat → Except String String) : RetryOutcome :=
  retryLoop oracle 4 1

/-! ## Data model -/

/-- `ComplianceState` (compliance.py lines 43-54): the mutable record the
LangGraph pipeline threads through its four nodes.  `Optional` fields
become `Option`; `compliance_report` is `Option` because the key is absent
until the verify node first writes it (`_parse_result` tests membership). -/
structure ComplianceState where
  user_id : String
  user_content : String
  s3_key : Option String
  file_id : Option String
  store_name : Option String
  metadata_filter : Option String
  file_to_cleanup : Option String
  mode : Option String
  extracted_rules : Option String
  compliance_report : Option String
  errors : List String
deriving DecidableEq

/-- Externally visible remote actions, recorded in order of issue. -/
inductive Event where
  /-- `client.file_search_stores.list()` traversal. -/
  | listStores
  /-- `client.file_search_stores.create(config={'display_name': d})`. -/
  | createStore (displayName : String)
  /-- `client.file_search_stores.documents.list(parent=store)`. -/
  | listDocs (store : String)
  /-- `_upload_from_s3(store_name, s3_key, metadata)`: S3 download plus
  Gemini file upload and import with metadata tags. -/
  | uploadS3 (s3_key : String) (tags : List (String × String))
  /-- The resilient extraction call: file-search tool scoped by store and
  metadata filter (compliance.py lines 138-152). -/
  | extractCall (store : String) (filter : Option String)
  /-- The resilient verification call (compliance.py lines 250-259). -/
  | verifyCall (rules content : String)
  /-- `client.files.delete(name=n)`. -/
  | fileDelete (n : String)
deriving DecidableEq

/-- The context dict produced by `prepare_compliance_context` /
`get_user_context` / `_setup_admin_context` / `_setup_user_context`.  The
pipeline's setup node consumes `store_name`, `metadata_filter`,
`file_to_cleanup` and `mode`. -/
structure CtxInfo where
  store_name : String
  metadata_filter : String
  file_to_cleanup : Option String
  google_file_name : Option String
  mode : String
deriving DecidableEq

/-! ## Document store manager (compliance_file_store.py) -/

/-- A document inside a file-search store: its resource name and its
string-valued custom metadata tags. -/
structure StoreDoc where
  name : String
  metadata : List (String × String)
deriving DecidableEq

/-- The remote service's durable state: the list of stores (resource
name, display name) in listing order, the documents of each store, and a
counter used to mint fresh store resource names. -/
structure RemoteState where
  stores : List (String × String)
  docs : String → List StoreDoc
  nextId : Nat

/-- The manager's process-local cache (`_user_store_id`,
`_admin_store_id` in `ComplianceFileStoreManager.__init__`). -/
structure MgrCache where
  user_store_id : Option String
  admin_store_id : Option String
deriving DecidableEq

/-- Oracle for the store manager's external interactions: whether the
store listing / document listing raise, the outcome of
`_upload_from_s3`, and the current clock (used for generated file ids). -/
structure MgrEnv where
  listStoresOk : Bool
  listDocsOk : Bool
  uploadResult : Except String String
  now : Nat

def USER_STORE_NAME : String := "Lawvriksh_User_Uploads_v1"

def ADMIN_STORE_NAME : String := "Lawvriksh_Admin_Standards_v1"

def ADMIN_DEFAULT_S3_KEY : String := "admin/defaults/standard_compliance_rules.pdf"

/-- First store in listing order whose display name matches. -/
def findStore (stores : List (String × String)) (displayName : String) : Option String :=
  match stores.find? (fun p => p.2 == displayName) with
  | some p => some p.1
  | none => none

/-- `_get_or_create_store` (compliance_file_store.py lines 411-445):
check the two cache slots, then scan the remote store listing for the
display name, and only then create.  The name found or created is cached:
into `_user_store_id` when the display name is the user store's, into
`_admin_store_id` otherwise (the code's `else` branch).  A listing
failure is swallowed and falls through to creation. -/
def _get_or_create_store (c : MgrCache) (r : RemoteState) (listOk : Bool)
    (displayName : String) : String × MgrCache × RemoteState × List Event :=
  if displayName = USER_STORE_NAME ∧ truthyO c.user_store_id then
    (c.user_store_id.getD "", c, r, [])
  else if displayName = ADMIN_STORE_NAME ∧ truthyO c.admin_store_id then
    (c.admin_store_id.getD "", c, r, [])
  else
    match (if listOk then findStore r.stores displayName else none) with
    | some h =>
      if displayName = USER_STORE_NAME then
        (h, { c with user_store_id := some h }, r, [Event.listStores])
      else
        (h, { c with admin_store_id := some h }, r, [Event.listStores])
    | none =>
      let h := "fileSearchStores/" ++ toString r.nextId
      let r' := { r with stores := r.stores ++ [(h, displayName)], nextId := r.nextId + 1 }
      if displayName = USER_STORE_NAME then
        (h, { c with user_store_id := some h }, r', [Event.listStores, Event.createStore displayName])
      else
        (h, { c with admin_store_id := some h }, r', [Event.listStores, Event.createStore displayName])

/-- The metadata filter built on the custom path
(compliance_file_store.py lines 157 and 287):
`f'user_id = "{user_id}" AND file_id = "{file_id}"'`. -/
def user_metadata_filter (user_id file_id : String) : String :=
  "user_id = \"" ++ user_id ++ "\" AND file_id = \"" ++ file_id ++ "\""

/-- Metadata tags attached by `_setup_user_context` (lines 278-282). -/
def userTags (user_id file_id : String) : List (String × String) :=
  [("user_id", user_id), ("file_id", file_id), ("type", "custom_upload")]

/-- Metadata tags attached when `_ensure_admin_file_exists` seeds the
admin store (lines 331-334). -/
def adminSeedTags : List (String × String) :=
  [("type", "standard_admin_rule"), ("version", "2024.1")]

/-- Does a document carry the tag `type = standard_admin_rule`?
(`_ensure_admin_file_exists`, lines 319-324.) -/
def hasAdminTag (d : StoreDoc) : Bool :=
  d.metadata.any (fun m => m.1 == "type" && m.2 == "standard_admin_rule")

/-- `_ensure_admin_file_exists` (lines 310-339): list the store's
documents (a listing failure propagates as an exception), return the
first one tagged `type = standard_admin_rule`, and otherwise seed the
store from the default S3 key.  Returns the admin file's name together
with the events issued. -/
def _ensure_admin_file_exists (docs : List StoreDoc) (listDocsOk : Bool)
    (uploadResult : Except String String) (store : String) :
    Except String String × List Event :=
  if ¬ listDocsOk then (Except.error "Error checking admin store", [Event.listDocs store])
  else
    match docs.find? hasAdminTag with
    | some f => (Except.ok f.name, [Event.listDocs store])
    | none =>
      match uploadResult with
      | Except.ok name =>
        (Except.ok name, [Event.listDocs store, Event.uploadS3 ADMIN_DEFAULT_S3_KEY adminSeedTags])
      | Except.error e =>
        (Except.error e, [Event.listDocs store, Event.uploadS3 ADMIN_DEFAULT_S3_KEY adminSeedTags])

/-- `_setup_admin_context` (lines 295-308): resolve the persistent admin
store, self-heal it, and return the standard-mode context (filter
`type = "standard_admin_rule"`, never a cleanup target). -/
def _setup_admin_context (c : MgrCache) (r : RemoteState) (me : MgrEnv) :
    Except String CtxInfo × MgrCache × RemoteState × List Event :=
  let goc := _get_or_create_store c r me.listStoresOk ADMIN_STORE_NAME
  let ens := _ensure_admin_file_exists ((goc.2.2.1).docs goc.1) me.listDocsOk me.uploadResult goc.1
  match ens.1 with
  | Except.ok name =>
    (Except.ok { store_name := goc.1, metadata_filter := "type = \"standard_admin_rule\"",
                 file_to_cleanup := none, google_file_name := some name, mode := "standard" },
     goc.2.1, goc.2.2.1, goc.2.2.2 ++ ens.2)
  | Except.error e => (Except.error e, goc.2.1, goc.2.2.1, goc.2.2.2 ++ ens.2)

/-- `_setup_user_context` (lines 261-293): resolve the transient user
store, generate a file id when none was given, upload the referenced S3
document tagged `{user_id, file_id, type=custom_upload}`, and return the
custom-mode context whose cleanup target is the uploaded binary. -/
def _setup_user_context (c : MgrCache) (r : RemoteState) (me : MgrEnv)
    (user_id s3_key : String) (file_id : Option String) :
    Except String CtxInfo × MgrCache × RemoteState × List Event :=
  let goc := _get_or_create_store c r me.listStoresOk USER_STORE_NAME
  let fid := if truthyO file_id then file_id.getD ""
             else "user_" ++ user_id ++ "_" ++ toString me.now
  let evs := goc.2.2.2 ++ [Event.uploadS3 s3_key (userTags user_id fid)]
  match me.uploadResult with
  | Except.ok gname =>
    (Except.ok { store_name := goc.1, metadata_filter := user_metadata_filter user_id fid,
                 file_to_cleanup := some gname, google_file_name := some gname, mode := "custom" },
     goc.2.1, goc.2.2.1, evs)
  | Except.error e => (Except.error e, goc.2.1, goc.2.2.1, evs)

/-- `prepare_compliance_context` (lines 55-82): the decision engine. A
truthy `s3_key` selects the user path, otherwise the admin path. -/
def prepare_compliance_context (c : MgrCache) (r : RemoteState) (me : MgrEnv)
    (user_id : String) (s3_key : Option String) (file_id : Option String) :
    Except String CtxInfo × MgrCache × RemoteState × List Event :=
  if truthyO s3_key then _setup_user_context c r me user_id (s3_key.getD "") file_id
  else _setup_admin_context c r me

/-- `get_user_context` (lines 141-160): resolve the user store and build
the context for a previously uploaded document; no upload happens and no
cleanup target is set. -/
def get_user_context (c : MgrCache) (r : RemoteState) (me : MgrEnv)
    (user_id file_id : String) : CtxInfo × MgrCache × RemoteState × List Event :=
  let goc := _get_or_create_store c r me.listStoresOk USER_STORE_NAME
  ({ store_name := goc.1, metadata_filter := user_metadata_filter user_id file_id,
     file_to_cleanup := none, google_file_name := none, mode := "custom" },
   goc.2.1, goc.2.2.1, goc.2.2.2)

/-- First-match lookup among a document's metadata tags (the code builds
a `dict` from the tag list and queries it; tag lists written by this
repository carry each key once). -/
def lookupTag : List (String × String) → String → Option String
  | [], _ => none
  | kv :: rest, k => if kv.1 = k then some kv.2 else lookupTag rest k

/-- Does a user-store document belong to `(user_id, file_id)`?
(`cleanup_user_file`, line 199.) -/
def matchesUserFile (f : StoreDoc) (user_id file_id : String) : Bool :=
  lookupTag f.metadata "user_id" == some user_id &&
    lookupTag f.metadata "file_id" == some file_id

/-- `cleanup_user_file` (lines 172-217): resolve the user store, list its
documents, and delete the remote binary recorded in the first matching
document's `google_file_name` tag (falling back to the document name);
`not_found` when nothing matches. -/
def cleanup_user_file (c : MgrCache) (r : RemoteState) (me : MgrEnv)
    (user_id file_id : String) : String × MgrCache × RemoteState × List Event :=
  let goc := _get_or_create_store c r me.listStoresOk USER_STORE_NAME
  if ¬ me.listDocsOk then
    ("error", goc.2.1, goc.2.2.1, goc.2.2.2 ++ [Event.listDocs goc.1])
  else
    match ((goc.2.2.1).docs goc.1).find? (fun f => matchesUserFile f user_id file_id) with
    | some f =>
      match lookupTag f.metadata "google_file_name" with
      | some g => ("success", goc.2.1, goc.2.2.1,
                   goc.2.2.2 ++ [Event.listDocs goc.1, Event.fileDelete g])
      | none => ("success", goc.2.1, goc.2.2.1,
                 goc.2.2.2 ++ [Event.listDocs goc.1, Event.fileDelete f.name])
    | none => ("not_found", goc.2.1, goc.2.2.1, goc.2.2.2 ++ [Event.listDocs goc.1])

/-! ## Upload polling (`_upload_from_s3`, lines 371-396)

After the binary has been transferred to the Gemini Files API, the code
polls `uploaded_file.state.name` in a `while` loop with a 1-second sleep
until the state leaves `PROCESSING`; a terminal `FAILED` raises, and only
then is the file imported into the store with `google_file_name` appended
to the metadata. -/

/-- Remote processing state of an uploaded file at each poll. -/
inductive FileState where
  | processing
  | failed
  | active
deriving DecidableEq

/-- The polling `while` loop, bounded by explicit fuel: `trace i` is the
state observed at the `i`-th poll; returns the index at which the state
first left `PROCESSING`, or `none` when that did not happen within
`fuel` polls.  The source loop carries no fuel: it only stops when the
trace leaves `PROCESSING`. -/
def pollLoop (trace : Nat → FileState) : Nat → Nat → Option Nat
  | 0, _ => none
  | fuel + 1, i => if trace i = FileState.processing then pollLoop trace fuel (i + 1) else some i

/-- The post-transfer phase of `_upload_from_s3`: poll, fail hard on
`FAILED`, otherwise register the document with `google_file_name`
appended to its metadata tags.  `none` means the polling loop was still
running after `fuel` iterations. -/
def _upload_from_s3_poll (fileName : String) (trace : Nat → FileState)
    (metadata : List (String × String)) (fuel : Nat) :
    Option (Except String (String × List (String × String))) :=
  match pollLoop trace fuel 0 with
  | none => none
  | some i =>
    if trace i = FileState.failed then some (Except.error "File upload failed")
    else some (Except.ok (fileName, metadata ++ [("google_file_name", fileName)]))

/-! ## Pipeline nodes (compliance.py lines 73-302)

Each LangGraph node returns a partial state update which the framework
merges into the running state; the functions below return the merged
state directly, updating exactly the keys the node's return dict
carries, together with the remote events the node issued. -/

/-- Oracle for the pipeline's own external calls: the overall outcome of
the (already-retried) extraction and verification calls, and whether the
cleanup deletion succeeds. -/
structure PipeEnv where
  extractResult : Except String String
  verifyResult : Except String String
  deleteOk : Bool

/-- `node_setup_context` (lines 73-112): missing `user_id` is appended to
`errors`; an already-resolved custom context is passed through; otherwise
`prepare_compliance_context` runs, its failure being caught and appended
to `errors`. -/
def node_setup_context (s : ComplianceState) (c : MgrCache) (r : RemoteState)
    (me : MgrEnv) : ComplianceState × MgrCache × RemoteState × List Event :=
  if ¬ truthyS s.user_id then
    ({ s with errors := s.errors ++ ["Missing user_id"] }, c, r, [])
  else if truthyO s.store_name ∧ s.mode = some "custom" then
    (s, c, r, [])
  else
    match prepare_compliance_context c r me s.user_id s.s3_key s.file_id with
    | (Except.ok ctx, c', r', evs) =>
      ({ s with store_name := some ctx.store_name,
                metadata_filter := some ctx.metadata_filter,
                file_to_cleanup := ctx.file_to_cleanup,
                mode := some ctx.mode }, c', r', evs)
    | (Except.error e, c', r', evs) =>
      ({ s with errors := s.errors ++ ["Context setup failed: " ++ e] }, c', r', evs)

/-- The sentinel `node_extract_rules` stores when no store is configured
(line 120). -/
def noStoreSentinel : String := "ERROR: No store configured."

/-- `node_extract_rules` (lines 115-159): without a truthy `store_name`
it stores the sentinel and calls nothing; otherwise it issues exactly one
resilient extraction call scoped by the store and the metadata filter,
storing the raw text on success and `"Error: ..."` plus an `errors`
entry when the retries are exhausted. -/
def node_extract_rules (s : ComplianceState) (extractResult : Except String String) :
    ComplianceState × List Event :=
  if ¬ truthyO s.store_name then
    ({ s with extracted_rules := some noStoreSentinel }, [])
  else
    match extractResult with
    | Except.ok t =>
      ({ s with extracted_rules := some t },
       [Event.extractCall (s.store_name.getD "") s.metadata_filter])
    | Except.error e =>
      ({ s with extracted_rules := some ("Error: " ++ e), errors := s.errors ++ [e] },
       [Event.extractCall (s.store_name.getD "") s.metadata_filter])

/-- The sentinel report `node_verify_compliance` stores when the rules
are missing (line 168). -/
def skippedReport : String := "\x7b\"error\": \"SKIPPED: Rules could not be extracted.\"\x7d"

/-- `node_verify_compliance` (lines 162-266): skips (storing the sentinel
report) when the rules text contains the substring `"ERROR"` or is
empty; otherwise issues exactly one resilient verification call, storing
the raw response text on success and appending to `errors` on failure. -/
def node_verify_compliance (s : ComplianceState) (verifyResult : Except String String) :
    ComplianceState × List Event :=
  let rules := s.extracted_rules.getD ""
  if pyContains "ERROR" rules ∨ rules = "" then
    ({ s with compliance_report := some skippedReport }, [])
  else
    match verifyResult with
    | Except.ok t =>
      ({ s with compliance_report := some t }, [Event.verifyCall rules s.user_content])
    | Except.error e =>
      ({ s with errors := s.errors ++ ["Verification failed: " ++ e] },
       [Event.verifyCall rules s.user_content])

/-- `node_cleanup` (lines 269-286): deletes the remote binary only when a
cleanup target is set and the mode is `custom`; a deletion failure is
only logged, and the node returns an empty update either way. -/
def node_cleanup (s : ComplianceState) (_deleteOk : Bool) : ComplianceState × List Event :=
  if truthyO s.file_to_cleanup ∧ s.mode = some "custom" then
    (s, [Event.fileDelete (s.file_to_cleanup.getD "")])
  else
    (s, [])

/-- `compliance_app.invoke`: the strictly linear state machine
setup → extract → verify → cleanup (lines 289-302). -/
def runPipeline (s0 : ComplianceState) (c : MgrCache) (r : RemoteState)
    (me : MgrEnv) (pe : PipeEnv) : ComplianceState × MgrCache × RemoteState × List Event :=
  let step1 := node_setup_context s0 c r me
  let step2 := node_extract_rules step1.1 pe.extractResult
  let step3 := node_verify_compliance step2.1 pe.verifyResult
  let step4 := node_cleanup step3.1 pe.deleteOk
  (step4.1, step1.2.1, step1.2.2.1, step1.2.2.2 ++ step2.2 ++ step3.2 ++ step4.2)

/-! ## Result parser (`_parse_result`, compliance.py lines 462-484) -/

/-- The caller-visible outcomes of `_parse_result`, with the decoded
report left generic in the JSON type. -/
inductive ParsedResult (J : Type) where
  | failed (errors : List String)
  | success (report : J)
  | error (message raw : String)
  | unknown_error
deriving DecidableEq

/-- `_parse_result`: a non-empty error list yields `failed` carrying it
verbatim; otherwise the raw report text is JSON-decoded, a decode
failure yielding `error` with the raw text; a state with neither errors
nor report yields `unknown_error`. `decode` models `json.loads`. -/
def _parse_result {J : Type} (decode : String → Option J) (s : ComplianceState) :
    ParsedResult J :=
  if s.errors ≠ [] then ParsedResult.failed s.errors
  else
    match s.compliance_report with
    | some raw =>
      match decode raw with
      | some j => ParsedResult.success j
      | none => ParsedResult.error "Model returned invalid JSON" raw
    | none => ParsedResult.unknown_error

/-! ## `check_compliance_with_user_rules` (compliance.py lines 326-366) -/

/-- Result of the pre-uploaded-rules entry point: the parsed outcome, the
final pipeline state, the events of `get_user_context` plus the pipeline
run, and the events of the optional post-pipeline cleanup. -/
structure CCWUROut (J : Type) where
  result : ParsedResult J
  finalState : ComplianceState
  pipeEvents : List Event
  postEvents : List Event

/-- The initial pipeline state built by `check_compliance_with_user_rules`
(lines 350-360): the context of the pre-uploaded file, an absent
`s3_key`, `mode="custom"`, and — deliberately — no cleanup target. -/
def ccwurInit (user_id file_id draft_text store filter : String) : ComplianceState :=
  { user_id := user_id, user_content := draft_text, s3_key := none,
    file_id := some file_id, store_name := some store,
    metadata_filter := some filter, file_to_cleanup := none,
    mode := some "custom", extracted_rules := none, compliance_report := none,
    errors := [] }

/-- `check_compliance_with_user_rules`: fetch the pre-uploaded file's
context, invoke the pipeline with `file_to_cleanup=None` and
`mode="custom"`, optionally delete the uploaded rules through the store
manager, and parse the final state. -/
def check_compliance_with_user_rules {J : Type} (decode : String → Option J)
    (user_id file_id draft_text : String) (cleanup_after : Bool)
    (c : MgrCache) (r : RemoteState) (me : MgrEnv) (pe : PipeEnv) : CCWUROut J :=
  let guc := get_user_context c r me user_id file_id
  let init := ccwurInit user_id file_id draft_text (guc.1).store_name (guc.1).metadata_filter
  let run := runPipeline init guc.2.1 guc.2.2.1 me pe
  let post := if cleanup_after then (cleanup_user_file run.2.1 run.2.2.1 me user_id file_id).2.2.2
              else []
  { result := _parse_result decode run.1, finalState := run.1,
    pipeEvents := guc.2.2.2 ++ run.2.2.2, postEvents := post }

/-! ## Scope-filter semantics

Modelled from the spec: the filter-language evaluator belongs to the
external generation/retrieval service and is not part of src/; the spec
describes a scope filter as "a metadata predicate restricting a store
query" built from conjuncts of `key = "value"` equalities joined by
`AND`.  `parseFilter` parses that grammar (a value extends to the next
quote; conjuncts are separated by the literal ` AND `), and
`filterMatches` holds when every conjunct equality is satisfied by the
record's metadata tags. -/

/-- Split a character list at every `"` character; the quote characters
themselves are dropped.  Always returns at least one segment. -/
def splitQuotes : List Char → List (List Char)
  | [] => [[]]
  | ch :: rest =>
    if ch = '"' then [] :: splitQuotes rest
    else
      match splitQuotes rest with
      | [] => [[ch]]
      | seg :: segs => (ch :: seg) :: segs

/-- Strip an expected leading literal, or fail. -/
def dropLit : List Char → List Char → Option (List Char)
  | [], cs => some cs
  | _ :: _, [] => none
  | p :: ps, ch :: cs => if ch = p then dropLit ps cs else none

/-- Strip an expected trailing literal, or fail. -/
def dropLitEnd (cs lit : List Char) : Option (List Char) :=
  (dropLit lit.reverse cs.reverse).map List.reverse

/-- Parse the segments following the first conjunct: each further
conjunct contributes the segments `" AND key = "` and `value`, and the
filter ends immediately after the final closing quote. -/
def parseMore : List (List Char) → Option (List (String × String))
  | [s] => if s = [] then some [] else none
  | s :: v :: rest =>
    match dropLit [' ', 'A', 'N', 'D', ' '] s with
    | none => none
    | some s' =>
      match dropLitEnd s' [' ', '=', ' '] with
      | none => none
      | some key =>
        match parseMore rest with
        | none => none
        | some l => some ((String.mk key, String.mk v) :: l)
  | [] => none

/-- Parse a conjunctive metadata filter `k1 = "v1" AND k2 = "v2" AND …`
into its list of `(key, value)` equalities; `none` on a string outside
the grammar. -/
def parseFilter (s : String) : Option (List (String × String)) :=
  match splitQuotes s.data with
  | k :: v :: rest =>
    match dropLitEnd k [' ', '=', ' '] with
    | none => none
    | some key =>
      match parseMore rest with
      | none => none
      | some l => some ((String.mk key, String.mk v) :: l)
  | _ => none

/-- A record matches a filter when the filter parses and every conjunct
equality holds of the record's metadata tags. -/
def filterMatches (filter : String) (rec : List (String × String)) : Bool :=
  match parseFilter filter with
  | none => false
  | some conjs => conjs.all (fun kv => lookupTag rec kv.1 == some kv.2)

/-- A sequence of `_get_or_create_store` resolutions threading the cache
and the remote state; returns the `(displayName, handle)` outcome of each
call in order. -/
def runStores : MgrCache → RemoteState → List (String × Bool) →
    List (String × String) × MgrCache × RemoteState
  | c, r, [] => ([], c, r)
  | c, r, (d, ok) :: rest =>
    let g := _get_or_create_store c r ok d
    let out := runStores g.2.1 g.2.2.1 rest
    ((d, g.1) :: out.1, out.2)

/-- The cache slot consulted for a display name (the user slot for the
user store's name, the admin slot otherwise — mirroring the code's
`if display_name == USER … else …`). -/
def slotOf (c : MgrCache) (d : String) : Option String :=
  if d = USER_STORE_NAME then c.user_store_id else c.admin_store_id

/-- Well-formedness: remote store handles are non-empty and no cache slot
holds the empty handle (true of the real service and preserved by every
operation). -/
def GoodState (c : MgrCache) (r : RemoteState) : Prop :=
  (∀ s ∈ r.stores, s.1 ≠ "") ∧ c.user_store_id ≠ some "" ∧ c.admin_store_id ≠ some ""

/-- Remote fixture for the C6 counterexample: the admin store `s1` plus
an unrelated store `s2` with display name `Other`. -/
def cexRemote : RemoteState :=
  ⟨[("s1", ADMIN_STORE_NAME), ("s2", "Other")], fun _ => [], 7⟩

/-- Call sequence fixture confined to the two configured names. -/
def wCalls : List (String × Bool) :=
  [(ADMIN_STORE_NAME, true), (USER_STORE_NAME, true), (ADMIN_STORE_NAME, false)]

/-- A fully concrete `ComplianceState` used as base point for witnesses. -/
def sampleState : ComplianceState :=
  { user_id := "u1", user_content := "Name: Jane Doe", s3_key := none, file_id := none,
    store_name := none, metadata_filter := none, file_to_cleanup := none, mode := none,
    extracted_rules := none, compliance_report := none, errors := [] }

/-- A concrete state entering EXTRACT with a resolved store handle. -/
def extractState : ComplianceState :=
  { sampleState with store_name := some "fileSearchStores/7", metadata_filter := some "type = \"standard_admin_rule\"" }

/-- Concrete fixtures used by witnesses. -/
def wMgrEnv : MgrEnv := ⟨true, true, Except.ok "files/up1", 0⟩

def wRemote : RemoteState := ⟨[], fun _ => [], 0⟩

def wPipeEnv : PipeEnv := ⟨Except.ok "extracted rules", Except.ok "raw report", true⟩

/-! ## Theorems -/

/-- `retryWait` in closed form on attempts ≥ 1. -/
theorem retryWait_eq_min (k : Nat) (hk : 1 ≤ k) : retryWait k = min (2 ^ k) 20 := by
  obtain ⟨m, rfl⟩ := Nat.exists_eq_add_of_le hk
  unfold retryWait wait_exponential
  have h1 : 1 + m - 1 = m := by omega
  have h2 : 2 * 2 ^ m = 2 ^ (1 + m) := by
    rw [pow_add, pow_one]
  have h3 : 2 ≤ 2 ^ (1 + m) :=
    le_trans (le_of_eq (pow_one 2).symm) (Nat.pow_le_pow_right (by norm_num) (by omega))
  rw [h1, h2]
  omega

/-- C4: the Resilient Invoker performs at most 4 attempts, the per-step
wait has floor 2, doubles per attempt and is capped at 20, the total
elapsed wait is bounded by `2+4+8+16`, and after three failed attempts
the outcome of the fourth (in particular the last failure) propagates. -/
theorem spec_C4 (oracle : Nat → Except String String) :
    (call_gemini_with_retry oracle).attempts ≤ 4 ∧
    (call_gemini_with_retry oracle).totalWait ≤ 2 + 4 + 8 + 16 ∧
    (∀ k, 1 ≤ k → 2 ≤ retryWait k ∧ retryWait k ≤ 20 ∧
      retryWait (k + 1) = min (2 * retryWait k) 20) ∧
    ((∃ e, oracle 1 = Except.error e) → (∃ e, oracle 2 = Except.error e) →
      (∃ e, oracle 3 = Except.error e) →
      (call_gemini_with_retry oracle).result = oracle 4) := by
  have hwait : ∀ k, 1 ≤ k → 2 ≤ retryWait k ∧ retryWait k ≤ 20 ∧
      retryWait (k + 1) = min (2 * retryWait k) 20 := by
    intro k hk
    have e1 := retryWait_eq_min k hk
    have e2 := retryWait_eq_min (k + 1) (by omega)
    have h2 : 2 ≤ 2 ^ k :=
      le_trans (le_of_eq (pow_one 2).symm) (Nat.pow_le_pow_right (by norm_num) hk)
    have h3 : 2 ^ (k + 1) = 2 * 2 ^ k := by
      rw [pow_succ]; ring
    rw [e1, e2, h3]
    omega
  refine ⟨?_, ?_, hwait, ?_⟩
  · cases h1 : oracle 1 with
    | ok t => simp [call_gemini_with_retry, retryLoop, h1]
    | error e1 =>
      cases h2 : oracle 2 with
      | ok t => simp [call_gemini_with_retry, retryLoop, h1, h2]
      | error e2 =>
        cases h3 : oracle 3 with
        | ok t => simp [call_gemini_with_retry, retryLoop, h1, h2, h3]
        | error e3 =>
          cases h4 : oracle 4 with
          | ok t => simp [call_gemini_with_retry, retryLoop, h1, h2, h3, h4]
          | error e4 => simp [call_gemini_with_retry, retryLoop, h1, h2, h3, h4]
  · cases h1 : oracle 1 with
    | ok t => simp [call_gemini_with_retry, retryLoop, h1]
    | error e1 =>
      cases h2 : oracle 2 with
      | ok t => simp [call_gemini_with_retry, retryLoop, h1, h2, retryWait_eq_min]
      | error e2 =>
        cases h3 : oracle 3 with
        | ok t => simp [call_gemini_with_retry, retryLoop, h1, h2, h3, retryWait_eq_min]
        | error e3 =>
          cases h4 : oracle 4 with
          | ok t => simp [call_gemini_with_retry, retryLoop, h1, h2, h3, h4, retryWait_eq_min]
          | error e4 => simp [call_gemini_with_retry, retryLoop, h1, h2, h3, h4, retryWait_eq_min]
  · rintro ⟨e1, h1⟩ ⟨e2, h2⟩ ⟨e3, h3⟩
    cases h4 : oracle 4 with
    | ok t => simp [call_gemini_with_retry, retryLoop, h1, h2, h3, h4]
    | error e4 => simp [call_gemini_with_retry, retryLoop, h1, h2, h3, h4]

/-- C4 witness: with every attempt failing as `"boom"`, at most 4
attempts are made and the final failure propagates. -/
theorem spec_C4_witness :
    (call_gemini_with_retry (fun _ => Except.error "boom")).attempts ≤ 4 ∧
    (call_gemini_with_retry (fun _ => Except.error "boom")).result = Except.error "boom" :=
  ⟨(spec_C4 (fun _ => Except.error "boom")).1,
   (spec_C4 (fun _ => Except.error "boom")).2.2.2 ⟨"boom", rfl⟩ ⟨"boom", rfl⟩ ⟨"boom", rfl⟩⟩

/-- C2: the CLEANUP stage issues no delete unless the mode is `custom`
and a cleanup target is set; any delete it issues names exactly the
cleanup target; and the stage never modifies the state (in particular a
deletion failure is never appended to `errors` and never raised). -/
theorem spec_C2 (s : ComplianceState) (deleteOk : Bool) :
    ((s.mode ≠ some "custom" ∨ truthyO s.file_to_cleanup = false) →
      (node_cleanup s deleteOk).2 = []) ∧
    (∀ n, Event.fileDelete n ∈ (node_cleanup s deleteOk).2 →
      s.mode = some "custom" ∧ truthyO s.file_to_cleanup = true ∧
        s.file_to_cleanup = some n) ∧
    (node_cleanup s deleteOk).1 = s := by
  refine ⟨?_, ?_, ?_⟩
  · intro hcond
    unfold node_cleanup
    rw [if_neg]
    rintro ⟨ha, hb⟩
    rcases hcond with hc | hc
    · exact hc hb
    · rw [hc] at ha; exact absurd ha (by simp)
  · intro n hn
    unfold node_cleanup at hn
    by_cases h : truthyO s.file_to_cleanup = true ∧ s.mode = some "custom"
    · rw [if_pos h] at hn
      simp only [List.mem_singleton, Event.fileDelete.injEq] at hn
      refine ⟨h.2, h.1, ?_⟩
      cases hf : s.file_to_cleanup with
      | none =>
        have := h.1
        rw [hf] at this
        simp [truthyO] at this
      | some x =>
        rw [hf] at hn
        simp at hn
        rw [hn]
    · rw [if_neg h] at hn
      simp at hn
  · unfold node_cleanup
    split <;> rfl

/-- C2 witness: a standard-mode state with a cleanup target set issues
no delete call. -/
theorem spec_C2_witness :
    (node_cleanup
      { sampleState with mode := some "standard", file_to_cleanup := some "files/abc" }
      true).2 = [] :=
  (spec_C2
    { sampleState with mode := some "standard", file_to_cleanup := some "files/abc" }
    true).1 (Or.inl (by decide))

/-- C8: the EXTRACT stage without a truthy store handle stores the
sentinel `"ERROR: No store configured."` and issues no call; with a
store handle it issues exactly one extraction call scoped by the store
handle and the scope filter, and stores the raw returned text on
success. -/
theorem spec_C8 (s : ComplianceState) (extractResult : Except String String) :
    (truthyO s.store_name = false →
      node_extract_rules s extractResult =
        ({ s with extracted_rules := some noStoreSentinel }, [])) ∧
    (truthyO s.store_name = true →
      (node_extract_rules s extractResult).2 =
        [Event.extractCall (s.store_name.getD "") s.metadata_filter] ∧
      ∀ t, extractResult = Except.ok t →
        (node_extract_rules s extractResult).1.extracted_rules = some t) := by
  constructor
  · intro h
    unfold node_extract_rules
    rw [if_pos]
    simp [h]
  · intro h
    unfold node_extract_rules
    rw [if_neg (by simp [h])]
    cases extractResult with
    | ok t => exact ⟨rfl, fun t' ht => by injection ht with ht'; rw [← ht']⟩
    | error e => exact ⟨rfl, fun t' ht => by cases ht⟩

/-- C8 witness: with the store handle absent the sentinel is stored and
no call is issued; with a handle present exactly one scoped call is
issued and the raw text is stored. -/
theorem spec_C8_witness :
    node_extract_rules sampleState (Except.ok "rules text") =
      ({ sampleState with extracted_rules := some noStoreSentinel }, []) ∧
    (node_extract_rules extractState (Except.ok "rules text")).2 =
      [Event.extractCall "fileSearchStores/7" (some "type = \"standard_admin_rule\"")] ∧
    (node_extract_rules extractState (Except.ok "rules text")).1.extracted_rules =
      some "rules text" := by
  refine ⟨(spec_C8 sampleState (Except.ok "rules text")).1 (by decide), ?_, ?_⟩
  · exact ((spec_C8 extractState (Except.ok "rules text")).2 (by decide)).1
  · exact ((spec_C8 extractState (Except.ok "rules text")).2 (by decide)).2 "rules text" rfl

/-- C3 (amended): the VERIFY stage skips — storing the sentinel report
and issuing no call — exactly when the rules text is empty/absent or
contains the (case-sensitive) substring `"ERROR"`; the skipped-EXTRACT
sentinel `"ERROR: No store configured."` satisfies this test.  In every
other case exactly one verification call is issued and the raw returned
text is stored on success. -/
theorem spec_C3 (s : ComplianceState) (verifyResult : Except String String) :
    ((pyContains "ERROR" (s.extracted_rules.getD "") = true ∨ s.extracted_rules.getD "" = "") →
      node_verify_compliance s verifyResult =
        ({ s with compliance_report := some skippedReport }, [])) ∧
    (pyContains "ERROR" (s.extracted_rules.getD "") = false →
      s.extracted_rules.getD "" ≠ "" →
      (node_verify_compliance s verifyResult).2 =
        [Event.verifyCall (s.extracted_rules.getD "") s.user_content] ∧
      ∀ t, verifyResult = Except.ok t →
        (node_verify_compliance s verifyResult).1.compliance_report = some t) ∧
    pyContains "ERROR" noStoreSentinel = true := by
  refine ⟨?_, ?_, by decide⟩
  · intro h
    simp only [node_verify_compliance]
    rw [if_pos h]
  · intro h1 h2
    simp only [node_verify_compliance]
    have hcond : ¬ (pyContains "ERROR" (s.extracted_rules.getD "") = true ∨
        s.extracted_rules.getD "" = "") := by
      rintro (hc | hc)
      · rw [h1] at hc; exact Bool.false_ne_true hc
      · exact h2 hc
    rw [if_neg hcond]
    cases verifyResult with
    | ok t => exact ⟨rfl, fun t' ht => by injection ht with ht'; rw [← ht']⟩
    | error e => exact ⟨rfl, fun t' ht => by cases ht⟩

/-- C3 counterexample: when the EXTRACT stage fails, it stores the
sentinel `"Error: timeout"`; entering VERIFY with exactly that sentinel
does NOT skip: a verification call is issued (the event list is
non-empty) and the raw response is stored instead of the skipped
report, because the skip test looks for the upper-case substring
`"ERROR"` only. -/
theorem spec_C3_counterexample :
    (node_extract_rules extractState (Except.error "timeout")).1.extracted_rules =
      some "Error: timeout" ∧
    (node_verify_compliance (node_extract_rules extractState (Except.error "timeout")).1
        (Except.ok "RAW_REPORT")).2 ≠ [] ∧
    (node_verify_compliance (node_extract_rules extractState (Except.error "timeout")).1
        (Except.ok "RAW_REPORT")).1.compliance_report = some "RAW_REPORT" := by
  decide

/-- C3 witness: with the skipped-EXTRACT sentinel stored in
`extracted_rules`, VERIFY stores the skipped report and issues no
call. -/
theorem spec_C3_witness :
    node_verify_compliance { sampleState with extracted_rules := some noStoreSentinel }
        (Except.ok "r") =
      ({ sampleState with extracted_rules := some noStoreSentinel, compliance_report := some skippedReport }, []) :=
  (spec_C3 { sampleState with extracted_rules := some noStoreSentinel }
    (Except.ok "r")).1 (Or.inl (by decide))

/-- A trace that never leaves `PROCESSING` defeats every fuel bound. -/
theorem pollLoop_const_processing (fuel i : Nat) :
    pollLoop (fun _ => FileState.processing) fuel i = none := by
  induction fuel generalizing i with
  | zero => rfl
  | succ n ih => simp [pollLoop, ih]

/-- The polling loop returns the first index at which the trace leaves
`PROCESSING`, given enough fuel. -/
theorem pollLoop_first_exit (trace : Nat → FileState) (i0 : Nat)
    (hne : trace i0 ≠ FileState.processing)
    (hmin : ∀ j, j < i0 → trace j = FileState.processing) :
    ∀ fuel s, s ≤ i0 → i0 < s + fuel → pollLoop trace fuel s = some i0 := by
  intro fuel
  induction fuel with
  | zero => intro s h1 h2; omega
  | succ n ih =>
    intro s h1 h2
    by_cases hs : trace s = FileState.processing
    · have hslt : s < i0 := by
        rcases Nat.lt_or_ge s i0 with h | h
        · exact h
        · have hsi : s = i0 := by omega
          exact absurd hs (hsi ▸ hne)
      simp only [pollLoop, if_pos hs]
      exact ih (s + 1) (by omega) (by omega)
    · have hsi : s = i0 := by
        by_contra hne2
        exact hs (hmin s (by omega))
      subst hsi
      simp [pollLoop, hs]

/-- C7 counterexample: there is no uniform bound `B` of polling
iterations after which the upload's polling loop has terminated for
every trace — a remote file that stays `PROCESSING` keeps the loop
running past any bound. -/
theorem spec_C7_counterexample :
    ¬ ∃ B : Nat, ∀ trace : Nat → FileState,
      (_upload_from_s3_poll "files/demo" trace [] B).isSome = true := by
  rintro ⟨B, hB⟩
  have h := hB (fun _ => FileState.processing)
  unfold _upload_from_s3_poll at h
  rw [pollLoop_const_processing] at h
  simp at h

/-- C7 (amended): the upload's polling loop terminates exactly when the
remote status eventually leaves `PROCESSING` (there is no uniform
iteration bound); when it terminates, a terminal `FAILED` status is a
hard error aborting the upload, and otherwise — only after processing
has completed — the record is registered with its metadata tags, which
include the remote binary's own identifier under `google_file_name`. -/
theorem spec_C7 (fileName : String) (trace : Nat → FileState)
    (metadata : List (String × String)) (i0 fuel : Nat)
    (hne : trace i0 ≠ FileState.processing)
    (hmin : ∀ j, j < i0 → trace j = FileState.processing)
    (hfuel : i0 < fuel) :
    _upload_from_s3_poll fileName trace metadata fuel =
      some (if trace i0 = FileState.failed then Except.error "File upload failed"
            else Except.ok (fileName, metadata ++ [("google_file_name", fileName)])) ∧
    (∀ fuel' n m,
      _upload_from_s3_poll fileName trace metadata fuel' = some (Except.ok (n, m)) →
      ("google_file_name", n) ∈ m) := by
  constructor
  · unfold _upload_from_s3_poll
    rw [pollLoop_first_exit trace i0 hne hmin fuel 0 (by omega) (by omega)]
    by_cases hf : trace i0 = FileState.failed
    · simp [hf]
    · simp [hf]
  · intro fuel' n m h
    unfold _upload_from_s3_poll at h
    cases hp : pollLoop trace fuel' 0 with
    | none => rw [hp] at h; cases h
    | some i =>
      rw [hp] at h
      by_cases hf : trace i = FileState.failed
      · simp [hf] at h
      · simp [hf] at h
        obtain ⟨h1, h2⟩ := h
        subst h1; subst h2
        simp

/-- C7 witness: a trace that processes for two polls and then becomes
active terminates the loop and registers the file with its
`google_file_name` tag appended. -/
theorem spec_C7_witness :
    _upload_from_s3_poll "files/w"
        (fun i => if i < 2 then FileState.processing else FileState.active)
        [("user_id", "u1")] 5 =
      some (Except.ok ("files/w", [("user_id", "u1"), ("google_file_name", "files/w")])) := by
  have h := (spec_C7 "files/w"
    (fun i => if i < 2 then FileState.processing else FileState.active)
    [("user_id", "u1")] 2 5 (by decide)
    (by intro j hj; interval_cases j <;> rfl) (by omega)).1
  simpa using h

/-- The cleanup node's state update is empty: the state passes through
unchanged. -/
theorem node_cleanup_fst (s : ComplianceState) (b : Bool) : (node_cleanup s b).1 = s := by
  unfold node_cleanup
  split <;> rfl

/-- After the verify node, the state carries a report or a non-empty
error list. -/
theorem node_verify_report_or_errors (s : ComplianceState) (vres : Except String String) :
    ((node_verify_compliance s vres).1).compliance_report ≠ none ∨
    ((node_verify_compliance s vres).1).errors ≠ [] := by
  simp only [node_verify_compliance]
  by_cases h : pyContains "ERROR" (s.extracted_rules.getD "") = true ∨
      s.extracted_rules.getD "" = ""
  · rw [if_pos h]
    left; simp
  · rw [if_neg h]
    cases vres with
    | ok t => left; simp
    | error e => right; simp

/-- C1: for every terminal state the pipeline can produce, the result
parser yields exactly one of three shapes: `failed` carrying the error
list verbatim when errors are present, otherwise `success`/`error`
according to whether the raw report decodes as JSON — never
`unknown_error` and never a crash (the parser is total). -/
theorem spec_C1 {J : Type} (decode : String → Option J) (s0 : ComplianceState)
    (c : MgrCache) (r : RemoteState) (me : MgrEnv) (pe : PipeEnv) :
    ((runPipeline s0 c r me pe).1.errors ≠ [] →
      _parse_result decode (runPipeline s0 c r me pe).1 =
        ParsedResult.failed (runPipeline s0 c r me pe).1.errors) ∧
    ((runPipeline s0 c r me pe).1.errors = [] →
      ∃ raw, (runPipeline s0 c r me pe).1.compliance_report = some raw ∧
        _parse_result decode (runPipeline s0 c r me pe).1 =
          (match decode raw with
            | some j => ParsedResult.success j
            | none => ParsedResult.error "Model returned invalid JSON" raw)) ∧
    _parse_result decode (runPipeline s0 c r me pe).1 ≠ ParsedResult.unknown_error := by
  have hstate : (runPipeline s0 c r me pe).1 =
      (node_verify_compliance
        (node_extract_rules (node_setup_context s0 c r me).1 pe.extractResult).1
        pe.verifyResult).1 := node_cleanup_fst _ _
  have hfin := node_verify_report_or_errors
      (node_extract_rules (node_setup_context s0 c r me).1 pe.extractResult).1 pe.verifyResult
  rw [hstate]
  set t := (node_verify_compliance
    (node_extract_rules (node_setup_context s0 c r me).1 pe.extractResult).1
    pe.verifyResult).1 with ht
  refine ⟨?_, ?_, ?_⟩
  · intro he
    unfold _parse_result
    rw [if_pos he]
  · intro he
    cases hrep : t.compliance_report with
    | none =>
      rcases hfin with hf | hf
      · exact absurd hrep hf
      · exact absurd he hf
    | some raw =>
      refine ⟨raw, rfl, ?_⟩
      unfold _parse_result
      rw [if_neg (by simp [he]), hrep]
  · unfold _parse_result
    by_cases he : t.errors = []
    · rw [if_neg (by simp [he])]
      cases hrep : t.compliance_report with
      | none =>
        rcases hfin with hf | hf
        · exact absurd hrep hf
        · exact absurd he hf
      | some raw =>
        cases hd : decode raw <;> simp [hd]
    · rw [if_pos he]
      simp

/-- C1 witness: a run with a missing `user_id` terminates with a
non-empty error list and parses to `failed` carrying it verbatim. -/
theorem spec_C1_witness :
    _parse_result (fun _ => (none : Option Unit))
        (runPipeline { sampleState with user_id := "" } ⟨none, none⟩ wRemote wMgrEnv wPipeEnv).1 =
      ParsedResult.failed
        (runPipeline { sampleState with user_id := "" } ⟨none, none⟩ wRemote wMgrEnv wPipeEnv).1.errors :=
  (spec_C1 (fun _ => (none : Option Unit)) { sampleState with user_id := "" }
    ⟨none, none⟩ wRemote wMgrEnv wPipeEnv).1 (by decide)

/-- Store resolution only ever lists and creates stores. -/
theorem goc_events (c : MgrCache) (r : RemoteState) (ok : Bool) (d : String) :
    ∀ e ∈ (_get_or_create_store c r ok d).2.2.2,
      e = Event.listStores ∨ e = Event.createStore d := by
  intro e he
  unfold _get_or_create_store at he
  split at he
  · simp at he
  · split at he
    · simp at he
    · split at he
      · split at he <;> simp at he <;> exact Or.inl he
      · split at he <;> simp at he <;> exact he

/-- C9: on the standard path (no document reference), the Context
Resolver resolves the shared admin store, queries its records, returns a
`standard`-mode context with the `type = "standard_admin_rule"` filter
and no cleanup target; when a record tagged `standard_admin_rule`
already exists it is reused and nothing is uploaded, and otherwise one
is seeded from the well-known default S3 source before returning. -/
theorem spec_C9 (c : MgrCache) (r : RemoteState) (me : MgrEnv)
    (user_id : String) (file_id : Option String) (upName : String)
    (hdocs : me.listDocsOk = true) (hup : me.uploadResult = Except.ok upName) :
    ∃ ctx, (prepare_compliance_context c r me user_id none file_id).1 = Except.ok ctx ∧
      ctx.mode = "standard" ∧
      ctx.metadata_filter = "type = \"standard_admin_rule\"" ∧
      ctx.file_to_cleanup = none ∧
      ctx.store_name = (_get_or_create_store c r me.listStoresOk ADMIN_STORE_NAME).1 ∧
      Event.listDocs ctx.store_name ∈
        (prepare_compliance_context c r me user_id none file_id).2.2.2 ∧
      (match (((_get_or_create_store c r me.listStoresOk ADMIN_STORE_NAME).2.2.1).docs
          (_get_or_create_store c r me.listStoresOk ADMIN_STORE_NAME).1).find? hasAdminTag with
        | some f => ctx.google_file_name = some f.name ∧
            ∀ k tags, Event.uploadS3 k tags ∉
              (prepare_compliance_context c r me user_id none file_id).2.2.2
        | none => ctx.google_file_name = some upName ∧
            Event.uploadS3 ADMIN_DEFAULT_S3_KEY adminSeedTags ∈
              (prepare_compliance_context c r me user_id none file_id).2.2.2) := by
  have hpre : prepare_compliance_context c r me user_id none file_id =
      _setup_admin_context c r me := by
    unfold prepare_compliance_context
    rfl
  rw [hpre]
  cases hfind : (((_get_or_create_store c r me.listStoresOk ADMIN_STORE_NAME).2.2.1).docs
      (_get_or_create_store c r me.listStoresOk ADMIN_STORE_NAME).1).find? hasAdminTag with
  | some f =>
    have hctx : (_setup_admin_context c r me).1 =
        Except.ok ⟨(_get_or_create_store c r me.listStoresOk ADMIN_STORE_NAME).1,
          "type = \"standard_admin_rule\"", none, some f.name, "standard"⟩ := by
      simp only [_setup_admin_context, _ensure_admin_file_exists, hdocs, hfind]
      simp
    refine ⟨_, hctx, rfl, rfl, rfl, rfl, ?_, ?_⟩
    · simp only [_setup_admin_context, _ensure_admin_file_exists, hdocs, hfind]
      simp
    · refine ⟨rfl, ?_⟩
      intro k tags hmem
      simp [_setup_admin_context, _ensure_admin_file_exists, hdocs, hfind] at hmem
      rcases goc_events c r me.listStoresOk ADMIN_STORE_NAME _ hmem with h | h <;> cases h
  | none =>
    have hctx : (_setup_admin_context c r me).1 =
        Except.ok ⟨(_get_or_create_store c r me.listStoresOk ADMIN_STORE_NAME).1,
          "type = \"standard_admin_rule\"", none, some upName, "standard"⟩ := by
      simp only [_setup_admin_context, _ensure_admin_file_exists, hdocs, hfind, hup]
      simp
    refine ⟨_, hctx, rfl, rfl, rfl, rfl, ?_, ?_⟩
    · simp only [_setup_admin_context, _ensure_admin_file_exists, hdocs, hfind, hup]
      simp
    · refine ⟨rfl, ?_⟩
      simp only [_setup_admin_context, _ensure_admin_file_exists, hdocs, hfind, hup]
      simp

/-- C9 witness: with an empty admin store, the standard path returns a
`standard`-mode context without cleanup target and seeds the default
rules from the well-known S3 source. -/
theorem spec_C9_witness :
    ∃ ctx, (prepare_compliance_context ⟨none, none⟩ wRemote wMgrEnv "u1" none none).1 =
        Except.ok ctx ∧ ctx.mode = "standard" ∧ ctx.file_to_cleanup = none ∧
      Event.uploadS3 ADMIN_DEFAULT_S3_KEY adminSeedTags ∈
        (prepare_compliance_context ⟨none, none⟩ wRemote wMgrEnv "u1" none none).2.2.2 := by
  obtain ⟨ctx, h1, h2, h3, h4, h5, h6, h7⟩ :=
    spec_C9 ⟨none, none⟩ wRemote wMgrEnv "u1" none "files/up1" rfl rfl
  exact ⟨ctx, h1, h2, h4, h7.2⟩

/-- `splitQuotes` always yields at least one segment. -/
theorem splitQuotes_ne_nil (cs : List Char) : splitQuotes cs ≠ [] := by
  induction cs with
  | nil => simp [splitQuotes]
  | cons c rest ih =>
    simp only [splitQuotes]
    by_cases h : c = '"'
    · simp [h]
    · rw [if_neg h]
      cases hs : splitQuotes rest with
      | nil => simp
      | cons a l => simp

/-- A leading quote opens an empty segment. -/
theorem splitQuotes_quote (cs : List Char) : splitQuotes ('"' :: cs) = [] :: splitQuotes cs := by
  simp [splitQuotes]

/-- A quote-free prefix is absorbed into the first segment. -/
theorem splitQuotes_no_quote_cons : ∀ (a : List Char), '"' ∉ a →
    ∀ (cs h0 : List Char) (t0 : List (List Char)), splitQuotes cs = h0 :: t0 →
    splitQuotes (a ++ cs) = (a ++ h0) :: t0 := by
  intro a
  induction a with
  | nil =>
    intro _ cs h0 t0 hcs
    simpa using hcs
  | cons c a' ih =>
    intro ha cs h0 t0 hcs
    rw [List.mem_cons, not_or] at ha
    have hc : ¬ c = '"' := fun h => ha.1 h.symm
    have hrec : splitQuotes (a'.append cs) = (a' ++ h0) :: t0 := ih ha.2 cs h0 t0 hcs
    simp only [List.cons_append, splitQuotes]
    rw [if_neg hc, hrec]

/-- The quote decomposition of the custom-path filter string. -/
theorem splitQuotes_filter (u f : List Char) (hu : '"' ∉ u) (hf : '"' ∉ f) :
    splitQuotes ("user_id = ".data ++ ('"' :: (u ++ ('"' :: (" AND file_id = ".data ++
        ('"' :: (f ++ ['"']))))))) =
      ["user_id = ".data, u, " AND file_id = ".data, f, []] := by
  have s1 : splitQuotes (['"'] : List Char) = [] :: [[]] := rfl
  have s2 : splitQuotes (f ++ ['"']) = (f ++ []) :: [[]] :=
    splitQuotes_no_quote_cons f hf ['"'] [] [[]] s1
  rw [List.append_nil] at s2
  have s3 : splitQuotes ('"' :: (f ++ ['"'])) = [] :: [f, []] := by
    rw [splitQuotes_quote, s2]
  have s4 : splitQuotes (" AND file_id = ".data ++ ('"' :: (f ++ ['"']))) =
      (" AND file_id = ".data ++ []) :: [f, []] :=
    splitQuotes_no_quote_cons " AND file_id = ".data (by decide) _ [] [f, []] s3
  rw [List.append_nil] at s4
  have s5 : splitQuotes ('"' :: (" AND file_id = ".data ++ ('"' :: (f ++ ['"'])))) =
      [] :: [" AND file_id = ".data, f, []] := by
    rw [splitQuotes_quote, s4]
  have s6 : splitQuotes (u ++ ('"' :: (" AND file_id = ".data ++ ('"' :: (f ++ ['"']))))) =
      (u ++ []) :: [" AND file_id = ".data, f, []] :=
    splitQuotes_no_quote_cons u hu _ [] [" AND file_id = ".data, f, []] s5
  rw [List.append_nil] at s6
  have s7 : splitQuotes ('"' :: (u ++ ('"' :: (" AND file_id = ".data ++
      ('"' :: (f ++ ['"'])))))) = [] :: [u, " AND file_id = ".data, f, []] := by
    rw [splitQuotes_quote, s6]
  have s8 := splitQuotes_no_quote_cons "user_id = ".data (by decide) _ []
    [u, " AND file_id = ".data, f, []] s7
  rw [List.append_nil] at s8
  exact s8

/-- The custom-path filter string, decomposed around its quotes. -/
theorem user_metadata_filter_data (u f : String) :
    (user_metadata_filter u f).data =
      "user_id = ".data ++ ('"' :: (u.data ++ ('"' :: (" AND file_id = ".data ++
        ('"' :: (f.data ++ ['"'])))))) := by
  have l1 : ("user_id = \"" : String).data = "user_id = ".data ++ ['"'] := by decide
  have l2 : ("\" AND file_id = \"" : String).data =
      '"' :: (" AND file_id = ".data ++ ['"']) := by decide
  have l3 : ("\"" : String).data = ['"'] := by decide
  unfold user_metadata_filter
  simp [String.data_append, l1, l2, l3, List.append_assoc]

/-- For quote-free ids, the constructed filter parses as exactly the two
conjuncts `user_id = u` and `file_id = f`. -/
theorem parseFilter_user (u f : String) (hu : '"' ∉ u.data) (hf : '"' ∉ f.data) :
    parseFilter (user_metadata_filter u f) = some [("user_id", u), ("file_id", f)] := by
  unfold parseFilter
  rw [user_metadata_filter_data u f, splitQuotes_filter u.data f.data hu hf]
  rfl

/-- C5 (amended): for every pair of quote-free `userId`/`fileId` strings,
the custom-path scope filter is the conjunction of the two equalities and
matches a record exactly when its `user_id` and `file_id` tags are that
pair; ids containing the `"` character escape the filter's value
position, so the restriction is necessary. -/
theorem spec_C5 (u f : String) (rec : List (String × String))
    (hu : '"' ∉ u.data) (hf : '"' ∉ f.data) :
    parseFilter (user_metadata_filter u f) = some [("user_id", u), ("file_id", f)] ∧
    (filterMatches (user_metadata_filter u f) rec = true ↔
      lookupTag rec "user_id" = some u ∧ lookupTag rec "file_id" = some f) := by
  refine ⟨parseFilter_user u f hu hf, ?_⟩
  unfold filterMatches
  rw [parseFilter_user u f hu hf]
  simp

/-- C5 counterexample: the filter built for the `userId`
`victim" AND type = "custom` (with `fileId` `f1`) parses as three
injected conjuncts and matches a record tagged with the DIFFERENT user
id `victim` — cross-user leakage, so the claim fails for arbitrary id
strings. -/
theorem spec_C5_counterexample :
    filterMatches (user_metadata_filter "victim\" AND type = \"custom" "f1")
        [("user_id", "victim"), ("file_id", "f1"), ("type", "custom")] = true ∧
    lookupTag [("user_id", "victim"), ("file_id", "f1"), ("type", "custom")] "user_id" ≠
      some "victim\" AND type = \"custom" := by
  decide

/-- C5 witness: for the quote-free pair `("u1", "f1")`, the filter is the
two-conjunct scope and matches a record tagged with exactly that pair. -/
theorem spec_C5_witness :
    parseFilter (user_metadata_filter "u1" "f1") =
      some [("user_id", "u1"), ("file_id", "f1")] ∧
    filterMatches (user_metadata_filter "u1" "f1")
      [("user_id", "u1"), ("file_id", "f1"), ("type", "custom_upload")] = true := by
  have h := spec_C5 "u1" "f1"
    [("user_id", "u1"), ("file_id", "f1"), ("type", "custom_upload")] (by decide) (by decide)
  exact ⟨h.1, h.2.mpr (by decide)⟩

/-- A found store handle comes from the remote listing. -/
theorem findStore_ne_empty (l : List (String × String)) (d h : String)
    (hl : ∀ s ∈ l, s.1 ≠ "") (hf : findStore l d = some h) : h ≠ "" := by
  unfold findStore at hf
  cases hfind : l.find? (fun p => p.2 == d) with
  | none => rw [hfind] at hf; cases hf
  | some p =>
    rw [hfind] at hf
    injection hf with hf
    exact hf ▸ hl p (List.mem_of_find?_eq_some hfind)

/-- Freshly created store handles are non-empty. -/
theorem create_name_ne_empty (n : Nat) : ("fileSearchStores/" ++ toString n) ≠ "" := by
  intro he
  have hd := congrArg String.data he
  rw [String.data_append] at hd
  exact absurd (List.append_eq_nil.mp hd).1 (by decide)

/-- Cache hit: a slot already holding a (non-empty) handle short-circuits
resolution — no listing, no creation, no state change. -/
theorem goc_cache_hit (c : MgrCache) (r : RemoteState) (ok : Bool) (d h : String)
    (hdn : d = USER_STORE_NAME ∨ d = ADMIN_STORE_NAME)
    (hs : slotOf c d = some h) (hne : h ≠ "") :
    _get_or_create_store c r ok d = (h, c, r, []) := by
  rcases hdn with rfl | rfl
  · unfold slotOf at hs
    rw [if_pos rfl] at hs
    unfold _get_or_create_store
    rw [if_pos ⟨rfl, by rw [hs]; simp [truthyO, hne]⟩, hs]
    rfl
  · unfold slotOf at hs
    rw [if_neg (by decide)] at hs
    unfold _get_or_create_store
    rw [if_neg (fun hh => absurd hh.1 (by decide))]
    rw [if_pos ⟨rfl, by rw [hs]; simp [truthyO, hne]⟩, hs]
    rfl

/-- After resolving one of the two configured names, that name's slot
caches exactly the returned handle. -/
theorem goc_slot_after (c : MgrCache) (r : RemoteState) (ok : Bool) (d : String)
    (hdn : d = USER_STORE_NAME ∨ d = ADMIN_STORE_NAME) :
    slotOf (_get_or_create_store c r ok d).2.1 d =
      some ((_get_or_create_store c r ok d).1) := by
  rcases hdn with rfl | rfl
  · unfold _get_or_create_store
    by_cases h1 : truthyO c.user_store_id = true
    · rw [if_pos ⟨rfl, h1⟩]
      unfold slotOf
      rw [if_pos rfl]
      cases hx : c.user_store_id with
      | none => rw [hx] at h1; simp [truthyO] at h1
      | some x => rfl
    · rw [if_neg (fun hh => h1 hh.2), if_neg (fun hh => absurd hh.1 (by decide))]
      cases hZ : (if ok then findStore r.stores USER_STORE_NAME else none) with
      | some h => rfl
      | none => rfl
  · unfold _get_or_create_store
    rw [if_neg (fun hh => absurd hh.1 (by decide))]
    by_cases h1 : truthyO c.admin_store_id = true
    · rw [if_pos ⟨rfl, h1⟩]
      unfold slotOf
      rw [if_neg (by decide)]
      cases hx : c.admin_store_id with
      | none => rw [hx] at h1; simp [truthyO] at h1
      | some x => rfl
    · rw [if_neg (fun hh => h1 hh.2)]
      cases hZ : (if ok then findStore r.stores ADMIN_STORE_NAME else none) with
      | some h => rfl
      | none => rfl

/-- Resolving one configured name never touches the other name's slot. -/
theorem goc_other_slot (c : MgrCache) (r : RemoteState) (ok : Bool) (d d' : String)
    (hdn : d = USER_STORE_NAME ∨ d = ADMIN_STORE_NAME)
    (hdn' : d' = USER_STORE_NAME ∨ d' = ADMIN_STORE_NAME) (hdd : d' ≠ d) :
    slotOf (_get_or_create_store c r ok d).2.1 d' = slotOf c d' := by
  rcases hdn with rfl | rfl
  · rcases hdn' with rfl | rfl
    · exact absurd rfl hdd
    · unfold _get_or_create_store
      by_cases h1 : truthyO c.user_store_id = true
      · rw [if_pos ⟨rfl, h1⟩]
      · rw [if_neg (fun hh => h1 hh.2), if_neg (fun hh => absurd hh.1 (by decide))]
        cases hZ : (if ok then findStore r.stores USER_STORE_NAME else none) with
        | some h => rfl
        | none => rfl
  · rcases hdn' with rfl | rfl
    · unfold _get_or_create_store
      rw [if_neg (fun hh => absurd hh.1 (by decide))]
      by_cases h1 : truthyO c.admin_store_id = true
      · rw [if_pos ⟨rfl, h1⟩]
      · rw [if_neg (fun hh => h1 hh.2)]
        cases hZ : (if ok then findStore r.stores ADMIN_STORE_NAME else none) with
        | some h => rfl
        | none => rfl
    · exact absurd rfl hdd

/-- Store resolution preserves well-formedness and returns a non-empty
handle. -/
theorem goc_good (c : MgrCache) (r : RemoteState) (ok : Bool) (d : String)
    (hg : GoodState c r) :
    GoodState (_get_or_create_store c r ok d).2.1 (_get_or_create_store c r ok d).2.2.1 ∧
    (_get_or_create_store c r ok d).1 ≠ "" := by
  obtain ⟨hst, hcu, hca⟩ := hg
  unfold _get_or_create_store
  by_cases h1 : d = USER_STORE_NAME ∧ truthyO c.user_store_id = true
  · rw [if_pos h1]
    refine ⟨⟨hst, hcu, hca⟩, ?_⟩
    cases hx : c.user_store_id with
    | none =>
      have h2 := h1.2
      rw [hx] at h2
      simp [truthyO] at h2
    | some x =>
      have h2 := h1.2
      rw [hx] at h2
      simp [truthyO] at h2
      simpa using h2
  · rw [if_neg h1]
    by_cases h2 : d = ADMIN_STORE_NAME ∧ truthyO c.admin_store_id = true
    · rw [if_pos h2]
      refine ⟨⟨hst, hcu, hca⟩, ?_⟩
      cases hx : c.admin_store_id with
      | none =>
        have h3 := h2.2
        rw [hx] at h3
        simp [truthyO] at h3
      | some x =>
        have h3 := h2.2
        rw [hx] at h3
        simp [truthyO] at h3
        simpa using h3
    · rw [if_neg h2]
      cases hZ : (if ok then findStore r.stores d else none) with
      | some h =>
        have hne : h ≠ "" := by
          cases ok with
          | false => simp at hZ
          | true =>
            simp at hZ
            exact findStore_ne_empty r.stores d h hst hZ
        by_cases h3 : d = USER_STORE_NAME
        · subst h3
          exact ⟨⟨hst, fun hh => hne (Option.some.inj hh), hca⟩, hne⟩
        · simp only [if_neg h3]
          exact ⟨⟨hst, hcu, fun hh => hne (Option.some.inj hh)⟩, hne⟩
      | none =>
        have hne := create_name_ne_empty r.nextId
        have hstores : ∀ s ∈ r.stores ++ [("fileSearchStores/" ++ toString r.nextId, d)],
            s.1 ≠ "" := by
          intro s hs
          rw [List.mem_append] at hs
          rcases hs with hs | hs
          · exact hst s hs
          · simp at hs
            rw [hs]
            exact hne
        by_cases h3 : d = USER_STORE_NAME
        · subst h3
          exact ⟨⟨hstores, fun hh => hne (Option.some.inj hh), hca⟩, hne⟩
        · simp only [if_neg h3]
          exact ⟨⟨hstores, hcu, fun hh => hne (Option.some.inj hh)⟩, hne⟩

/-- A cached (non-empty) slot value survives any further resolutions of
the two configured names. -/
theorem runStores_slot_stable :
    ∀ (calls : List (String × Bool)) (c : MgrCache) (r : RemoteState) (d h : String),
      (∀ p ∈ calls, p.1 = USER_STORE_NAME ∨ p.1 = ADMIN_STORE_NAME) →
      (d = USER_STORE_NAME ∨ d = ADMIN_STORE_NAME) →
      slotOf c d = some h → h ≠ "" →
      slotOf (runStores c r calls).2.1 d = some h := by
  intro calls
  induction calls with
  | nil =>
    intro c r d h _ _ hs _
    simpa [runStores] using hs
  | cons p rest ih =>
    obtain ⟨d', ok⟩ := p
    intro c r d h hnames hdn hs hne
    have hd' : d' = USER_STORE_NAME ∨ d' = ADMIN_STORE_NAME := by
      simpa using hnames (d', ok) (List.mem_cons_self _ _)
    have hnames' : ∀ p ∈ rest, p.1 = USER_STORE_NAME ∨ p.1 = ADMIN_STORE_NAME :=
      fun p hp => hnames p (List.mem_cons_of_mem _ hp)
    by_cases hdd : d' = d
    · subst hdd
      have heq := goc_cache_hit c r ok d' h hd' hs hne
      have hrun : (runStores c r ((d', ok) :: rest)).2.1 =
          (runStores (_get_or_create_store c r ok d').2.1
            (_get_or_create_store c r ok d').2.2.1 rest).2.1 := rfl
      rw [hrun, heq]
      exact ih c r d' h hnames' hd' hs hne
    · have hpres := goc_other_slot c r ok d' d hd' hdn (fun hh => hdd hh.symm)
      have hrun : (runStores c r ((d', ok) :: rest)).2.1 =
          (runStores (_get_or_create_store c r ok d').2.1
            (_get_or_create_store c r ok d').2.2.1 rest).2.1 := rfl
      rw [hrun]
      exact ih _ _ d h hnames' hdn (by rw [hpres]; exact hs) hne

/-- Every result of a run confined to the two configured names is
non-empty and recorded in that name's cache slot at the end. -/
theorem runStores_results :
    ∀ (calls : List (String × Bool)) (c : MgrCache) (r : RemoteState),
      (∀ p ∈ calls, p.1 = USER_STORE_NAME ∨ p.1 = ADMIN_STORE_NAME) →
      GoodState c r →
      ∀ q ∈ (runStores c r calls).1,
        (q.1 = USER_STORE_NAME ∨ q.1 = ADMIN_STORE_NAME) ∧ q.2 ≠ "" ∧
        slotOf (runStores c r calls).2.1 q.1 = some q.2 := by
  intro calls
  induction calls with
  | nil =>
    intro c r _ _ q hq
    simp [runStores] at hq
  | cons p rest ih =>
    obtain ⟨d, ok⟩ := p
    intro c r hnames hg q hq
    have hd : d = USER_STORE_NAME ∨ d = ADMIN_STORE_NAME := by
      simpa using hnames (d, ok) (List.mem_cons_self _ _)
    have hnames' : ∀ p ∈ rest, p.1 = USER_STORE_NAME ∨ p.1 = ADMIN_STORE_NAME :=
      fun p hp => hnames p (List.mem_cons_of_mem _ hp)
    have hgood := goc_good c r ok d hg
    have hrun1 : (runStores c r ((d, ok) :: rest)).1 =
        (d, (_get_or_create_store c r ok d).1) ::
          (runStores (_get_or_create_store c r ok d).2.1
            (_get_or_create_store c r ok d).2.2.1 rest).1 := rfl
    have hrun2 : (runStores c r ((d, ok) :: rest)).2.1 =
        (runStores (_get_or_create_store c r ok d).2.1
          (_get_or_create_store c r ok d).2.2.1 rest).2.1 := rfl
    rw [hrun1] at hq
    rw [hrun2]
    rcases List.mem_cons.mp hq with rfl | hq'
    · exact ⟨hd, hgood.2,
        runStores_slot_stable rest _ _ d _ hnames' hd (goc_slot_after c r ok d hd) hgood.2⟩
    · exact ih _ _ hnames' hgood.1 q hq'

/-- C6 (amended): for resolution sequences confined to the two display
names the manager actually uses (with non-empty remote handles),
resolution is idempotent — any two resolutions of the same name in a run
return the same handle — and every resolved handle is cached in that
name's slot for the rest of the process.  A slot already populated
short-circuits (no listing, no creation, no state change), and a name
found by listing is returned without creating a store.  (For any third
display name the code reuses the admin slot, which breaks per-name
caching — see the counterexample.) -/
theorem spec_C6 (calls : List (String × Bool)) (r0 : RemoteState)
    (hnames : ∀ p ∈ calls, p.1 = USER_STORE_NAME ∨ p.1 = ADMIN_STORE_NAME)
    (hr : ∀ s ∈ r0.stores, s.1 ≠ "") :
    (∀ q ∈ (runStores ⟨none, none⟩ r0 calls).1,
      ∀ q' ∈ (runStores ⟨none, none⟩ r0 calls).1, q.1 = q'.1 → q.2 = q'.2) ∧
    (∀ q ∈ (runStores ⟨none, none⟩ r0 calls).1,
      slotOf (runStores ⟨none, none⟩ r0 calls).2.1 q.1 = some q.2) ∧
    (∀ (c : MgrCache) (r : RemoteState) (ok : Bool) (d h : String),
      (d = USER_STORE_NAME ∨ d = ADMIN_STORE_NAME) → slotOf c d = some h → h ≠ "" →
      _get_or_create_store c r ok d = (h, c, r, [])) ∧
    (∀ (c : MgrCache) (r : RemoteState) (d h : String),
      findStore r.stores d = some h →
      (_get_or_create_store c r true d).2.2.1 = r ∧
      ∀ dn, Event.createStore dn ∉ (_get_or_create_store c r true d).2.2.2) := by
  have hg0 : GoodState ⟨none, none⟩ r0 := ⟨hr, by simp, by simp⟩
  refine ⟨?_, ?_, ?_, ?_⟩
  · intro q hq q' hq' hname
    have h1 := (runStores_results calls _ r0 hnames hg0 q hq).2.2
    have h2 := (runStores_results calls _ r0 hnames hg0 q' hq').2.2
    rw [hname] at h1
    exact Option.some.inj (h1.symm.trans h2)
  · exact fun q hq => (runStores_results calls _ r0 hnames hg0 q hq).2.2
  · exact fun c r ok d h hdn hs hne => goc_cache_hit c r ok d h hdn hs hne
  · intro c r d h hf
    unfold _get_or_create_store
    by_cases h1 : d = USER_STORE_NAME ∧ truthyO c.user_store_id = true
    · rw [if_pos h1]
      exact ⟨rfl, by simp⟩
    · rw [if_neg h1]
      by_cases h2 : d = ADMIN_STORE_NAME ∧ truthyO c.admin_store_id = true
      · rw [if_pos h2]
        exact ⟨rfl, by simp⟩
      · rw [if_neg h2]
        have hsc : (if (true : Bool) then findStore r.stores d else none) = some h := by
          simpa using hf
        rw [hsc]
        by_cases h3 : d = USER_STORE_NAME
        · subst h3
          exact ⟨rfl, by simp⟩
        · simp only [if_neg h3]
          exact ⟨trivial, by simp⟩

/-- C6 counterexample: resolving the admin name, then the unrelated
display name `Other`, then the admin name again returns `s1` and then
`s2` for the SAME display name — the `Other` resolution was cached into
the admin slot, so the cached name-to-handle mapping is corrupted and
resolution is not idempotent for arbitrary display names. -/
theorem spec_C6_counterexample :
    (runStores ⟨none, none⟩ cexRemote
        [(ADMIN_STORE_NAME, true), ("Other", true), (ADMIN_STORE_NAME, true)]).1 =
      [(ADMIN_STORE_NAME, "s1"), ("Other", "s2"), (ADMIN_STORE_NAME, "s2")] ∧
    ("s1" : String) ≠ "s2" := by
  decide

/-- C6 witness: a run over the two configured names; the admin handle is
cached after its first resolution. -/
theorem spec_C6_witness :
    slotOf (runStores ⟨none, none⟩ cexRemote wCalls).2.1 ADMIN_STORE_NAME = some "s1" := by
  have h := (spec_C6 wCalls cexRemote (by decide) (by decide)).2.1
  exact h (ADMIN_STORE_NAME, "s1") (by decide)

/-- The events of the user-context setup path, independent of the upload
outcome. -/
theorem setup_user_events (c : MgrCache) (r : RemoteState) (me : MgrEnv)
    (uid skey : String) (fid : Option String) :
    (_setup_user_context c r me uid skey fid).2.2.2 =
      (_get_or_create_store c r me.listStoresOk USER_STORE_NAME).2.2.2 ++
        [Event.uploadS3 skey (userTags uid (if truthyO fid = true then fid.getD ""
          else "user_" ++ uid ++ "_" ++ toString me.now))] := by
  obtain ⟨lso, ldo, upres, now⟩ := me
  cases upres <;> rfl

/-- The events of the admin self-healing check. -/
theorem ensure_events (docs : List StoreDoc) (lOk : Bool) (up : Except String String)
    (store : String) :
    (_ensure_admin_file_exists docs lOk up store).2 = [Event.listDocs store] ∨
    (_ensure_admin_file_exists docs lOk up store).2 =
      [Event.listDocs store, Event.uploadS3 ADMIN_DEFAULT_S3_KEY adminSeedTags] := by
  unfold _ensure_admin_file_exists
  by_cases h : ¬ lOk = true
  · rw [if_pos h]
    left; rfl
  · rw [if_neg h]
    cases hF : docs.find? hasAdminTag with
    | some f => left; rfl
    | none =>
      cases up with
      | ok nm => right; rfl
      | error e => right; rfl

/-- The events of the admin-context setup path, independent of the
self-healing outcome. -/
theorem setup_admin_events (c : MgrCache) (r : RemoteState) (me : MgrEnv) :
    (_setup_admin_context c r me).2.2.2 =
      (_get_or_create_store c r me.listStoresOk ADMIN_STORE_NAME).2.2.2 ++
        (_ensure_admin_file_exists
          (((_get_or_create_store c r me.listStoresOk ADMIN_STORE_NAME).2.2.1).docs
            (_get_or_create_store c r me.listStoresOk ADMIN_STORE_NAME).1)
          me.listDocsOk me.uploadResult
          (_get_or_create_store c r me.listStoresOk ADMIN_STORE_NAME).1).2 := by
  simp only [_setup_admin_context]
  rcases hE : (_ensure_admin_file_exists
      (((_get_or_create_store c r me.listStoresOk ADMIN_STORE_NAME).2.2.1).docs
        (_get_or_create_store c r me.listStoresOk ADMIN_STORE_NAME).1)
      me.listDocsOk me.uploadResult
      (_get_or_create_store c r me.listStoresOk ADMIN_STORE_NAME).1).1 with e | nm <;> rfl

/-- Context resolution never deletes a remote file. -/
theorem prepare_no_delete (c : MgrCache) (r : RemoteState) (me : MgrEnv)
    (uid : String) (skey fid : Option String) (n : String) :
    Event.fileDelete n ∉ (prepare_compliance_context c r me uid skey fid).2.2.2 := by
  intro hn
  unfold prepare_compliance_context at hn
  by_cases hs : truthyO skey = true
  · rw [if_pos hs] at hn
    rw [setup_user_events] at hn
    rw [List.mem_append] at hn
    rcases hn with hn | hn
    · rcases goc_events _ _ _ _ _ hn with h | h <;> cases h
    · simp at hn
  · rw [if_neg hs] at hn
    rw [setup_admin_events] at hn
    rw [List.mem_append] at hn
    rcases hn with hn | hn
    · rcases goc_events _ _ _ _ _ hn with h | h <;> cases h
    · rcases ensure_events
          (((_get_or_create_store c r me.listStoresOk ADMIN_STORE_NAME).2.2.1).docs
            (_get_or_create_store c r me.listStoresOk ADMIN_STORE_NAME).1)
          me.listDocsOk me.uploadResult
          (_get_or_create_store c r me.listStoresOk ADMIN_STORE_NAME).1 with he | he <;>
        rw [he] at hn <;> simp at hn

/-- Any `Except.ok` context out of the admin path has no cleanup
target. -/
theorem setup_admin_ok_cleanup (c : MgrCache) (r : RemoteState) (me : MgrEnv)
    (ctx : CtxInfo) (h : (_setup_admin_context c r me).1 = Except.ok ctx) :
    ctx.file_to_cleanup = none := by
  simp only [_setup_admin_context] at h
  rcases hE : (_ensure_admin_file_exists
      (((_get_or_create_store c r me.listStoresOk ADMIN_STORE_NAME).2.2.1).docs
        (_get_or_create_store c r me.listStoresOk ADMIN_STORE_NAME).1)
      me.listDocsOk me.uploadResult
      (_get_or_create_store c r me.listStoresOk ADMIN_STORE_NAME).1).1 with e | nm
  · rw [hE] at h
    simp at h
  · rw [hE] at h
    simp at h
    rw [← h]

/-- The setup node of a run whose state has no document reference and no
cleanup target leaves the cleanup target absent. -/
theorem setup_cleanup_none (s : ComplianceState) (c : MgrCache) (r : RemoteState)
    (me : MgrEnv) (hs3 : s.s3_key = none) (hcl : s.file_to_cleanup = none) :
    ((node_setup_context s c r me).1).file_to_cleanup = none := by
  unfold node_setup_context
  by_cases h1 : ¬ truthyS s.user_id = true
  · rw [if_pos h1]
    exact hcl
  · rw [if_neg h1]
    by_cases h2 : truthyO s.store_name = true ∧ s.mode = some "custom"
    · rw [if_pos h2]
      exact hcl
    · rw [if_neg h2]
      rw [hs3]
      rcases hP : prepare_compliance_context c r me s.user_id none s.file_id with ⟨res, c', r', evs⟩
      cases res with
      | ok ctx =>
        have hA : (_setup_admin_context c r me).1 = Except.ok ctx := by
          have hr : prepare_compliance_context c r me s.user_id none s.file_id =
              _setup_admin_context c r me := rfl
          rw [← hr, hP]
        exact setup_admin_ok_cleanup c r me ctx hA
      | error e => exact hcl

/-- The setup node issues no delete call. -/
theorem setup_no_delete (s : ComplianceState) (c : MgrCache) (r : RemoteState)
    (me : MgrEnv) (n : String) :
    Event.fileDelete n ∉ (node_setup_context s c r me).2.2.2 := by
  unfold node_setup_context
  by_cases h1 : ¬ truthyS s.user_id = true
  · rw [if_pos h1]; simp
  · rw [if_neg h1]
    by_cases h2 : truthyO s.store_name = true ∧ s.mode = some "custom"
    · rw [if_pos h2]; simp
    · rw [if_neg h2]
      rcases hP : prepare_compliance_context c r me s.user_id s.s3_key s.file_id with ⟨res, c', r', evs⟩
      have hevs : Event.fileDelete n ∉ evs := by
        have h := prepare_no_delete c r me s.user_id s.s3_key s.file_id n
        rw [hP] at h
        exact h
      cases res with
      | ok ctx => exact hevs
      | error e => exact hevs

/-- The extract node issues no delete call. -/
theorem extract_no_delete (s : ComplianceState) (eres : Except String String) (n : String) :
    Event.fileDelete n ∉ (node_extract_rules s eres).2 := by
  unfold node_extract_rules
  by_cases h : ¬ truthyO s.store_name = true
  · rw [if_pos h]; simp
  · rw [if_neg h]; cases eres <;> simp

/-- The verify node issues no delete call. -/
theorem verify_no_delete (s : ComplianceState) (vres : Except String String) (n : String) :
    Event.fileDelete n ∉ (node_verify_compliance s vres).2 := by
  simp only [node_verify_compliance]
  by_cases h : pyContains "ERROR" (s.extracted_rules.getD "") = true ∨
      s.extracted_rules.getD "" = ""
  · rw [if_pos h]; simp
  · rw [if_neg h]; cases vres <;> simp

/-- The extract node does not touch the cleanup target. -/
theorem extract_cleanup_pres (s : ComplianceState) (eres : Except String String) :
    ((node_extract_rules s eres).1).file_to_cleanup = s.file_to_cleanup := by
  unfold node_extract_rules
  by_cases h : ¬ truthyO s.store_name = true
  · rw [if_pos h]
  · rw [if_neg h]; cases eres <;> rfl

/-- The verify node does not touch the cleanup target. -/
theorem verify_cleanup_pres (s : ComplianceState) (vres : Except String String) :
    ((node_verify_compliance s vres).1).file_to_cleanup = s.file_to_cleanup := by
  simp only [node_verify_compliance]
  by_cases h : pyContains "ERROR" (s.extracted_rules.getD "") = true ∨
      s.extracted_rules.getD "" = ""
  · rw [if_pos h]
  · rw [if_neg h]; cases vres <;> rfl

/-- A pipeline run started without a document reference and without a
cleanup target issues no delete and terminates without a cleanup
target. -/
theorem pipeline_no_delete (s0 : ComplianceState) (c : MgrCache) (r : RemoteState)
    (me : MgrEnv) (pe : PipeEnv) (hs3 : s0.s3_key = none)
    (hcl : s0.file_to_cleanup = none) :
    (∀ n, Event.fileDelete n ∉ (runPipeline s0 c r me pe).2.2.2) ∧
    ((runPipeline s0 c r me pe).1).file_to_cleanup = none := by
  have h1 := setup_cleanup_none s0 c r me hs3 hcl
  have hfc : ((node_verify_compliance
      (node_extract_rules (node_setup_context s0 c r me).1 pe.extractResult).1
      pe.verifyResult).1).file_to_cleanup = none := by
    rw [verify_cleanup_pres, extract_cleanup_pres]
    exact h1
  constructor
  · intro n hn
    have hdec : (runPipeline s0 c r me pe).2.2.2 =
        (node_setup_context s0 c r me).2.2.2 ++
        (node_extract_rules (node_setup_context s0 c r me).1 pe.extractResult).2 ++
        (node_verify_compliance
          (node_extract_rules (node_setup_context s0 c r me).1 pe.extractResult).1
          pe.verifyResult).2 ++
        (node_cleanup (node_verify_compliance
          (node_extract_rules (node_setup_context s0 c r me).1 pe.extractResult).1
          pe.verifyResult).1 pe.deleteOk).2 := by
      simp [runPipeline, List.append_assoc]
    rw [hdec] at hn
    rw [List.mem_append, List.mem_append, List.mem_append] at hn
    rcases hn with ((hn | hn) | hn) | hn
    · exact setup_no_delete s0 c r me n hn
    · exact extract_no_delete _ _ n hn
    · exact verify_no_delete _ _ n hn
    · unfold node_cleanup at hn
      rw [if_neg (by rintro ⟨hh1, hh2⟩; rw [hfc] at hh1; simp [truthyO] at hh1)] at hn
      simp at hn
  · have hst : (runPipeline s0 c r me pe).1 =
        (node_verify_compliance
          (node_extract_rules (node_setup_context s0 c r me).1 pe.extractResult).1
          pe.verifyResult).1 := node_cleanup_fst _ _
    rw [hst]
    exact hfc

/-- C10: `check_compliance_with_user_rules` invokes the pipeline with an
absent cleanup target (mode `custom` notwithstanding), so the terminal
CLEANUP stage deletes no remote file in this flow, for any input and any
oracle; deletion of the uploaded rules happens only through the explicit
post-pipeline store-manager cleanup, which runs exactly when the caller
passes `cleanup_after=true`. -/
theorem spec_C10 {J : Type} (decode : String → Option J) (uid fid draft : String)
    (cleanup_after : Bool) (c : MgrCache) (r : RemoteState) (me : MgrEnv) (pe : PipeEnv) :
    (∀ n, Event.fileDelete n ∉
      (check_compliance_with_user_rules decode uid fid draft cleanup_after c r me pe).pipeEvents) ∧
    (check_compliance_with_user_rules decode uid fid draft cleanup_after
      c r me pe).finalState.file_to_cleanup = none ∧
    (cleanup_after = false →
      (check_compliance_with_user_rules decode uid fid draft cleanup_after
        c r me pe).postEvents = []) ∧
    (∀ n, Event.fileDelete n ∈
        (check_compliance_with_user_rules decode uid fid draft cleanup_after
          c r me pe).postEvents →
      cleanup_after = true) := by
  have hpipe : (check_compliance_with_user_rules decode uid fid draft cleanup_after
      c r me pe).pipeEvents =
      (get_user_context c r me uid fid).2.2.2 ++
      (runPipeline (ccwurInit uid fid draft
          ((get_user_context c r me uid fid).1).store_name
          ((get_user_context c r me uid fid).1).metadata_filter)
        (get_user_context c r me uid fid).2.1 (get_user_context c r me uid fid).2.2.1
        me pe).2.2.2 := rfl
  have hguc : (get_user_context c r me uid fid).2.2.2 =
      (_get_or_create_store c r me.listStoresOk USER_STORE_NAME).2.2.2 := rfl
  refine ⟨?_, ?_, ?_, ?_⟩
  · intro n hn
    rw [hpipe, List.mem_append] at hn
    rcases hn with hn | hn
    · rw [hguc] at hn
      rcases goc_events _ _ _ _ _ hn with h | h <;> cases h
    · exact (pipeline_no_delete _ _ _ _ _ rfl rfl).1 n hn
  · have hfin : (check_compliance_with_user_rules decode uid fid draft cleanup_after
        c r me pe).finalState =
        (runPipeline (ccwurInit uid fid draft
            ((get_user_context c r me uid fid).1).store_name
            ((get_user_context c r me uid fid).1).metadata_filter)
          (get_user_context c r me uid fid).2.1 (get_user_context c r me uid fid).2.2.1
          me pe).1 := rfl
    rw [hfin]
    exact (pipeline_no_delete _ _ _ _ _ rfl rfl).2
  · intro hfalse
    have hpost : (check_compliance_with_user_rules decode uid fid draft cleanup_after
        c r me pe).postEvents =
        (check_compliance_with_user_rules decode uid fid draft false c r me pe).postEvents := by
      rw [hfalse]
    rw [hpost]
    rfl
  · intro n hmem
    cases hca : cleanup_after with
    | true => rfl
    | false =>
      rw [hca] at hmem
      have hpost : (check_compliance_with_user_rules decode uid fid draft false
          c r me pe).postEvents = [] := rfl
      rw [hpost] at hmem
      simp at hmem

/-- C10 witness: with `cleanup_after=false` the post-pipeline cleanup is
not invoked. -/
theorem spec_C10_witness :
    (check_compliance_with_user_rules (fun _ => (none : Option Unit)) "u1" "f1" "text" false
      ⟨none, none⟩ wRemote wMgrEnv wPipeEnv).postEvents = [] :=
  (spec_C10 (fun _ => (none : Option Unit)) "u1" "f1" "text" false
    ⟨none, none⟩ wRemote wMgrEnv wPipeEnv).2.2.1 rfl

end Compilance
